import Mathlib

/-!
Shallow embedding of the 7-Minute Contract Review single-page application
(src/App.tsx) and proofs about its step/timer/findings state machine and
report generator.

The React component is modelled as a state record plus one total transition
function per user-visible event.  React's rendering semantics are made
explicit in the handlers:

* `useState` setters batch into a single new state per event;
* a `useEffect` body re-runs after a commit exactly when one of its listed
  dependencies changed value; in particular React bails out of a state
  update whose new value equals the old one (`Object.is`), so an effect
  keyed on that state does not re-run;
* the timer `setInterval` callback exists only while
  `isTimerRunning && timeLeft > 0` (the condition under which the timer
  effect schedules it), which is the guard of the `tickTimer` transition.
-/

namespace ContractReview

/-- Data model of one review stage (src/App.tsx `StepDefinition`, lines
528-535).  The decorative `icon` field is a ReactNode carrying no data
semantics and is omitted from the embedding. -/
structure StepDefinition where
  id : Nat
  title : String
  duration : Int
  description : String
  checklist : List String
deriving Repr, DecidableEq

/-- Mutable per-step findings record (src/App.tsx `FindingData`, lines
537-540). -/
structure FindingData where
  checked : List String
  notes : String
deriving Repr, DecidableEq

/-- Mapping from 0-based step index to findings (src/App.tsx `FindingsMap`,
lines 542-544).  A JavaScript object with numeric keys and absent entries
is modelled as a total function into `Option`. -/
def FindingsMap : Type := Nat → Option FindingData

/-- The six statically authored steps (src/App.tsx lines 35-112), with
titles, durations and checklists verbatim. -/
def steps : List StepDefinition := [
  { id := 1,
    title := "Control Clauses",
    duration := 60,
    description := "Identify the 3 clauses that decide who wins. If these are vague or one-sided, nothing else matters.",
    checklist := [
      "Term: Is the duration clear?",
      "Termination: Can we get out? At what cost?",
      "Liability: Is it capped? Are we exposed?"
    ] },
  { id := 2,
    title := "Money, Obligations & Timelines",
    duration := 120,
    description := "90% of disputes come from these 5 things. Check payment and performance strictly.",
    checklist := [
      "Payment Amount: Is the math exact?",
      "Payment Schedule: When is it due?",
      "Penalties: Are there late fees or interest?",
      "Performance Obligations: What MUST be done?",
      "Deadlines: Are dates hard or soft?"
    ] },
  { id := 3,
    title := "Definitions",
    duration := 60,
    description := "Undefined terms = loopholes. Over-defined terms = traps.",
    checklist := [
      "Check for 'Shall' vs 'May' misuse",
      "Scan for ambiguous words (e.g., 'reasonable')",
      "Find hidden obligations buried in definitions"
    ] },
  { id := 4,
    title := "Indemnity + Confidentiality",
    duration := 60,
    description := "The most weaponized clauses. If unlimited, the client is at high risk.",
    checklist := [
      "Indemnity: Who indemnifies whom?",
      "Indemnity Scope: For what exactly?",
      "Confidentiality: Is the scope reasonable?"
    ] },
  { id := 5,
    title := "Dispute Resolution",
    duration := 60,
    description := "Avoid the wrong jurisdiction, wrong seat, or expensive arbitration.",
    checklist := [
      "Jurisdiction: Is it favorable/neutral?",
      "Seat: Is the physical location practical?",
      "Arbitration: Is it mandatory? Who pays?",
      "Delays: Are timeline mechanisms clear?"
    ] },
  { id := 6,
    title := "Final Sanity Check",
    duration := 60,
    description := "Quick scan for structural integrity and missing pieces.",
    checklist := [
      "Conflicting clauses",
      "Missing annexures/exhibits",
      "Internal inconsistencies",
      "Signature blocks correct"
    ] }
]

/-- Indexing `steps[i]`; the application only ever indexes with
`activeStep` in range 0..5, so the default is never reached from a
reachable state. -/
def stepAt (i : Nat) : StepDefinition :=
  steps.getD i { id := 0, title := "", duration := 0, description := "", checklist := [] }

/-- The component's session state (src/App.tsx lines 25-31). -/
structure State where
  activeStep : Nat
  isTimerRunning : Bool
  timeLeft : Int
  findings : FindingsMap
  reviewComplete : Bool
  contractName : String
  mobileMenuOpen : Bool

/-- The empty findings map (`{}`, src/App.tsx lines 28 and 269). -/
def emptyFindings : FindingsMap := fun _ => none

/-- Initial state (src/App.tsx lines 25-31): step 0, timer stopped at 60,
no findings, empty contract name, menu closed. -/
def initState : State :=
  { activeStep := 0, isTimerRunning := false, timeLeft := 60,
    findings := emptyFindings, reviewComplete := false,
    contractName := "", mobileMenuOpen := false }

/-- Timer effect (src/App.tsx lines 117-129) as a state transformer: after
any commit that changed `isTimerRunning` or `timeLeft`, if `timeLeft` is 0
the effect stops the timer.  (The effect's other job, scheduling the
one-second interval while `isTimerRunning && timeLeft > 0`, is the guard
of `tickTimer` below.) -/
def timerEffect (s : State) : State :=
  if s.timeLeft = 0 then { s with isTimerRunning := false } else s

/-- Step-change effect body (src/App.tsx lines 132-136): reset the timer
to the new step's full duration, stop it, and close the mobile menu. -/
def stepChangeEffect (s : State) : State :=
  timerEffect { s with timeLeft := (stepAt s.activeStep).duration,
                       isTimerRunning := false,
                       mobileMenuOpen := false }

/-- Setting the active step (sidebar/mobile click, src/App.tsx lines 336
and 374; also used by Next/Back).  React bails out of a state update whose
new value equals the current one, and the step-change effect's dependency
`activeStep` is then unchanged, so the effect re-runs exactly when the
index actually changes. -/
def setActiveStep (i : Nat) (s : State) : State :=
  if i = s.activeStep then s
  else stepChangeEffect { s with activeStep := i }

/-- `toggleTimer` (src/App.tsx line 140) followed by the timer effect
re-running on the changed `isTimerRunning`. -/
def toggleTimer (s : State) : State :=
  timerEffect { s with isTimerRunning := !s.isTimerRunning }

/-- `resetTimer` (src/App.tsx lines 142-145) followed by the timer
effect. -/
def resetTimer (s : State) : State :=
  timerEffect { s with isTimerRunning := false,
                       timeLeft := (stepAt s.activeStep).duration }

/-- One tick of the interval scheduled by the timer effect (src/App.tsx
lines 119-122): the interval exists only while
`isTimerRunning && timeLeft > 0`; its callback decrements `timeLeft`, and
the timer effect then re-runs on the changed `timeLeft`. -/
def tickTimer (s : State) : State :=
  if s.isTimerRunning ∧ 0 < s.timeLeft then
    timerEffect { s with timeLeft := s.timeLeft - 1 }
  else s

/-- `handleNext` (src/App.tsx lines 147-153): advance by one, or finish on
the last step. -/
def handleNext (s : State) : State :=
  if s.activeStep < steps.length - 1 then setActiveStep (s.activeStep + 1) s
  else { s with reviewComplete := true }

/-- `handleBack` (src/App.tsx lines 155-159). -/
def handleBack (s : State) : State :=
  if 0 < s.activeStep then setActiveStep (s.activeStep - 1) s else s

/-- `updateFinding` (src/App.tsx lines 161-169): replace the active step's
notes, keeping its checked list (`prev[activeStep]?.checked || []`; an
existing array, even empty, is truthy in JavaScript, so this is the stored
list when a record exists and `[]` otherwise). -/
def updateFinding (text : String) (s : State) : State :=
  { s with findings := fun j =>
      if j = s.activeStep then
        some { checked := ((s.findings s.activeStep).map FindingData.checked).getD [],
               notes := text }
      else s.findings j }

/-- `toggleChecklist` (src/App.tsx lines 171-186): flip the item's
membership in the active step's checked list — filter it out when present
(`currentList.filter(i => i !== item)`), append it when absent
(`[...currentList, item]`); notes are kept
(`prev[activeStep]?.notes || ''`, which is the stored string either way
since the fallback is also the empty string). -/
def toggleChecklist (item : String) (s : State) : State :=
  let currentList := ((s.findings s.activeStep).map FindingData.checked).getD []
  let newList := if currentList.contains item
    then currentList.filter (fun i => i != item)
    else currentList ++ [item]
  { s with findings := fun j =>
      if j = s.activeStep then
        some { checked := newList,
               notes := ((s.findings s.activeStep).map FindingData.notes).getD "" }
      else s.findings j }

/-- The "Start New Review" confirm branch (src/App.tsx lines 266-272):
clear the completion flag, go to step 0, empty the findings map and the
contract name, stop the timer.  The step-change effect then re-runs
exactly when `activeStep` actually changed (from nonzero to 0); the timer
effect re-runs on the changed `isTimerRunning`. -/
def startNewReview (s : State) : State :=
  let t : State :=
    { s with reviewComplete := false, activeStep := 0,
             findings := emptyFindings, contractName := "",
             isTimerRunning := false }
  if s.activeStep = 0 then timerEffect t else stepChangeEffect t

/-- JavaScript `String.prototype.toUpperCase()` on the ASCII step titles,
written as a structural map so that it evaluates inside proofs. -/
def toUpperString (t : String) : String := String.mk (t.data.map Char.toUpper)

/-- JavaScript `String.prototype.trim()`: strip whitespace from both ends,
written structurally so that it evaluates inside proofs. -/
def trimString (t : String) : String :=
  String.mk (((t.data.dropWhile Char.isWhitespace).reverse.dropWhile Char.isWhitespace).reverse)

/-- One per-step block of the generated report (the body of the
`steps.forEach` loop in `generateReport`, src/App.tsx lines 199-216):
title line, then either the flag lines (in the stored order of `checked`)
and a notes line, or the no-issues status line, then the separator. -/
def stepBlock (index : Nat) (step : StepDefinition) (stepData : Option FindingData) : String :=
  let checked := (stepData.map FindingData.checked).getD []
  let notes := (stepData.map FindingData.notes).getD ""
  let hasIssues := decide (0 < checked.length) || (notes != "" && trimString notes != "")
  "[" ++ toString (index + 1) ++ "] " ++ toUpperString step.title ++ "\n"
    ++ (if hasIssues then
          (if 0 < checked.length then
            "Flags Identified:\n"
              ++ String.join (checked.map (fun item => " - [x] " ++ item ++ "\n"))
          else "")
          ++ (if notes != "" then "Notes: " ++ notes ++ "\n" else "")
        else "Status: No specific issues flagged.\n")
    ++ "\n-----------------------------------\n\n"

/-- `generateReport` (src/App.tsx lines 194-219).  The date line is
parametrised by the locale-formatted date string the browser would
produce (`new Date().toLocaleDateString()`). -/
def generateReport (dateStr : String) (s : State) : String :=
  "7-MINUTE CONTRACT REVIEW REPORT\n"
    ++ "Contract: " ++ (if s.contractName != "" then s.contractName else "Untitled") ++ "\n"
    ++ "Date: " ++ dateStr ++ "\n\n"
    ++ String.join (steps.enum.map (fun p => stepBlock p.1 p.2 (s.findings p.1)))

/-- The sidebar "has findings" dot condition (src/App.tsx line 347):
`findings[idx]?.checked?.length || findings[idx]?.notes` rendered as a
truthiness test — a nonzero checked length, or a nonempty notes string
(no trimming). -/
def hasFindingsDot (fd : Option FindingData) : Bool :=
  ((fd.map fun d => d.checked.length).getD 0 != 0)
    || ((fd.map FindingData.notes).getD "" != "")

/-- The user-visible events of the application.  Navigation, timer,
checklist, notes, name and menu controls are rendered only in the step
view; Return to Review and Start New Review only in the summary view; the
interval tick fires whenever the timer effect has scheduled it, in either
view. -/
inductive Event where
  | next
  | back
  | jump (i : Nat)
  | timerToggle
  | timerReset
  | tick
  | toggleItem (k : Nat)
  | setNotes (text : String)
  | setName (text : String)
  | menuToggle
  | returnToReview
  | newReview (confirmed : Bool)

/-- The transition function: one total step of the state machine per
event.  Guards record which controls the UI renders in which view
(src/App.tsx: the step view renders navigation/timer/findings controls
only when `reviewComplete` is false, lines 229 and 286 onward; the
summary view renders Return to Review and Start New Review, lines
236-241 and 264-277; checklist checkboxes exist only for the indices of
the active step's checklist, line 431; a Start New Review without the
confirmation, and a declined confirmation, change nothing). -/
def applyEvent (e : Event) (s : State) : State :=
  match e with
  | .next => if s.reviewComplete then s else handleNext s
  | .back => if s.reviewComplete then s else handleBack s
  | .jump i =>
      if s.reviewComplete || decide (steps.length ≤ i) then s else setActiveStep i s
  | .timerToggle => if s.reviewComplete then s else toggleTimer s
  | .timerReset => if s.reviewComplete then s else resetTimer s
  | .tick => tickTimer s
  | .toggleItem k =>
      if s.reviewComplete || decide ((stepAt s.activeStep).checklist.length ≤ k) then s
      else toggleChecklist ((stepAt s.activeStep).checklist.getD k "") s
  | .setNotes text => if s.reviewComplete then s else updateFinding text s
  | .setName text => if s.reviewComplete then s else { s with contractName := text }
  | .menuToggle =>
      if s.reviewComplete then s else { s with mobileMenuOpen := !s.mobileMenuOpen }
  | .returnToReview =>
      if s.reviewComplete then { s with reviewComplete := false } else s
  | .newReview confirmed =>
      if s.reviewComplete && confirmed then startNewReview s else s

/-- The states the application can be in: the initial state and
everything reachable from it by events. -/
inductive Reachable : State → Prop
  | init : Reachable initState
  | step (e : Event) {s : State} : Reachable s → Reachable (applyEvent e s)

/-- Well-formedness of the findings map: every stored checked list is
duplicate-free and drawn from that step's authored checklist. -/
def WFfindings (s : State) : Prop :=
  ∀ i fd, s.findings i = some fd →
    fd.checked.Nodup ∧ ∀ x ∈ fd.checked, x ∈ (stepAt i).checklist

/-- The inductive invariant of the state machine. -/
def SessionInv (s : State) : Prop :=
  s.activeStep < 6 ∧
  0 ≤ s.timeLeft ∧
  (s.timeLeft = 0 → s.isTimerRunning = false) ∧
  (s.reviewComplete = true → s.activeStep = 5) ∧
  WFfindings s

theorem duration_pos : ∀ i, i < 6 → 0 < (stepAt i).duration := by decide

theorem steps_length : steps.length = 6 := rfl

/-- The timer effect establishes the whole invariant as soon as the other
four conjuncts hold before it runs: it stops the timer itself whenever
`timeLeft` is 0. -/
theorem sessionInv_timerEffect (s : State) (h6 : s.activeStep < 6)
    (h0 : 0 ≤ s.timeLeft) (hrc : s.reviewComplete = true → s.activeStep = 5)
    (hwf : WFfindings s) : SessionInv (timerEffect s) := by
  unfold timerEffect
  split
  · exact ⟨h6, h0, fun _ => rfl, hrc, hwf⟩
  · next h => exact ⟨h6, h0, fun hz => absurd hz h, hrc, hwf⟩

/-- The step-change effect establishes the invariant: it installs the new
step's positive duration and stops the timer. -/
theorem sessionInv_stepChangeEffect (s : State) (h6 : s.activeStep < 6)
    (hrc : s.reviewComplete = true → s.activeStep = 5)
    (hwf : WFfindings s) : SessionInv (stepChangeEffect s) := by
  unfold stepChangeEffect
  exact sessionInv_timerEffect _ h6 (le_of_lt (duration_pos _ h6)) hrc hwf

/-- The checked list read through `?.checked || []` is duplicate-free and
drawn from the step's checklist whenever the findings map is
well-formed. -/
theorem checkedList_wf (s : State) (hwf : WFfindings s) (i : Nat) :
    (((s.findings i).map FindingData.checked).getD []).Nodup ∧
    ∀ x ∈ ((s.findings i).map FindingData.checked).getD [],
      x ∈ (stepAt i).checklist := by
  cases hfd : s.findings i with
  | none => simp
  | some d => simpa using hwf i d hfd

/-- The record `toggleChecklist` stores under the active step's key. -/
theorem toggleChecklist_findings_self (item : String) (s : State) :
    (toggleChecklist item s).findings s.activeStep =
      some { checked :=
               if (((s.findings s.activeStep).map FindingData.checked).getD []).contains item
               then (((s.findings s.activeStep).map FindingData.checked).getD []).filter
                      (fun i => i != item)
               else ((s.findings s.activeStep).map FindingData.checked).getD [] ++ [item],
             notes := ((s.findings s.activeStep).map FindingData.notes).getD "" } := by
  simp [toggleChecklist]

/-- `toggleChecklist` is a pure per-key update: other keys are
untouched. -/
theorem toggleChecklist_findings_other (item : String) (s : State) (j : Nat)
    (h : j ≠ s.activeStep) : (toggleChecklist item s).findings j = s.findings j := by
  simp [toggleChecklist, h]

/-- The record `updateFinding` stores under the active step's key. -/
theorem updateFinding_findings_self (text : String) (s : State) :
    (updateFinding text s).findings s.activeStep =
      some { checked := ((s.findings s.activeStep).map FindingData.checked).getD [],
             notes := text } := by
  simp [updateFinding]

/-- `updateFinding` is a pure per-key update: other keys are untouched. -/
theorem updateFinding_findings_other (text : String) (s : State) (j : Nat)
    (h : j ≠ s.activeStep) : (updateFinding text s).findings j = s.findings j := by
  simp [updateFinding, h]

/-- Every event preserves the session invariant. -/
theorem sessionInv_apply (e : Event) (s : State) (h : SessionInv s) :
    SessionInv (applyEvent e s) := by
  obtain ⟨h6, h0, hz, hrc, hwf⟩ := h
  have hInv : SessionInv s := ⟨h6, h0, hz, hrc, hwf⟩
  cases e with
  | next =>
    simp only [applyEvent]
    split
    · exact hInv
    · next hnc =>
      unfold handleNext
      split
      · next hlt =>
        unfold setActiveStep
        split
        · exact hInv
        · exact sessionInv_stepChangeEffect _
            (by show s.activeStep + 1 < 6
                simp only [steps_length] at hlt; omega)
            (fun hh => absurd hh hnc) hwf
      · next hge =>
        simp only [steps_length] at hge
        exact ⟨h6, h0, hz, fun _ => by show s.activeStep = 5; omega, hwf⟩
  | back =>
    simp only [applyEvent]
    split
    · exact hInv
    · next hnc =>
      unfold handleBack
      split
      · unfold setActiveStep
        split
        · exact hInv
        · exact sessionInv_stepChangeEffect _
            (by show s.activeStep - 1 < 6; omega)
            (fun hh => absurd hh hnc) hwf
      · exact hInv
  | jump i =>
    simp only [applyEvent]
    split
    · exact hInv
    · next hg =>
      simp only [Bool.or_eq_true, decide_eq_true_eq, not_or, not_le,
        steps_length] at hg
      unfold setActiveStep
      split
      · exact hInv
      · exact sessionInv_stepChangeEffect _ (by show i < 6; omega)
          (fun hh => absurd hh hg.1) hwf
  | timerToggle =>
    simp only [applyEvent]
    split
    · exact hInv
    · next hnc => exact sessionInv_timerEffect _ h6 h0 (fun hh => absurd hh hnc) hwf
  | timerReset =>
    simp only [applyEvent]
    split
    · exact hInv
    · next hnc =>
      exact sessionInv_timerEffect _ h6 (le_of_lt (duration_pos _ h6))
        (fun hh => absurd hh hnc) hwf
  | tick =>
    simp only [applyEvent]
    unfold tickTimer
    split
    · next hcond =>
      exact sessionInv_timerEffect _ h6
        (show (0:Int) ≤ s.timeLeft - 1 by omega) hrc hwf
    · exact hInv
  | toggleItem k =>
    simp only [applyEvent]
    split
    · exact hInv
    · next hg =>
      simp only [Bool.or_eq_true, decide_eq_true_eq, not_or, not_le] at hg
      obtain ⟨hnc, hk⟩ := hg
      refine ⟨h6, h0, hz, hrc, ?_⟩
      intro i fd hfd
      by_cases hi : i = s.activeStep
      · subst hi
        obtain ⟨hnd, hsub⟩ := checkedList_wf s hwf s.activeStep
        have hitem : (stepAt s.activeStep).checklist.getD k "" ∈
            (stepAt s.activeStep).checklist := by
          rw [List.getD_eq_getElem _ _ hk]
          exact List.getElem_mem hk
        rw [toggleChecklist_findings_self] at hfd
        injection hfd with hfd
        subst hfd
        simp only
        split
        · next hc =>
          refine ⟨List.Nodup.filter _ hnd, ?_⟩
          intro x hx
          exact hsub x (List.mem_of_mem_filter hx)
        · next hc =>
          have hnmem : (stepAt s.activeStep).checklist.getD k "" ∉
              ((s.findings s.activeStep).map FindingData.checked).getD [] := by
            intro hm
            exact hc (List.elem_iff.mpr hm)
          refine ⟨?_, ?_⟩
          · rw [List.nodup_append]
            refine ⟨hnd, List.nodup_singleton _, ?_⟩
            intro a ha hb
            rw [List.mem_singleton] at hb
            subst hb
            exact hnmem ha
          · intro x hx
            rcases List.mem_append.1 hx with hx | hx
            · exact hsub x hx
            · rw [List.mem_singleton] at hx
              subst hx
              exact hitem
      · rw [toggleChecklist_findings_other _ _ _ hi] at hfd
        exact hwf i fd hfd
  | setNotes text =>
    simp only [applyEvent]
    split
    · exact hInv
    · refine ⟨h6, h0, hz, hrc, ?_⟩
      intro i fd hfd
      by_cases hi : i = s.activeStep
      · subst hi
        rw [updateFinding_findings_self] at hfd
        injection hfd with hfd
        subst hfd
        exact checkedList_wf s hwf s.activeStep
      · rw [updateFinding_findings_other _ _ _ hi] at hfd
        exact hwf i fd hfd
  | setName text =>
    simp only [applyEvent]
    split
    · exact hInv
    · exact ⟨h6, h0, hz, hrc, hwf⟩
  | menuToggle =>
    simp only [applyEvent]
    split
    · exact hInv
    · exact ⟨h6, h0, hz, hrc, hwf⟩
  | returnToReview =>
    simp only [applyEvent]
    split
    · exact ⟨h6, h0, hz, fun hh => by simp at hh, hwf⟩
    · exact hInv
  | newReview confirmed =>
    simp only [applyEvent]
    split
    · unfold startNewReview
      split
      · exact sessionInv_timerEffect _ (by show (0:Nat) < 6; decide) h0
          (fun hh => by simp at hh) (fun i fd hfd => by simp [emptyFindings] at hfd)
      · exact sessionInv_stepChangeEffect _ (by show (0:Nat) < 6; decide)
          (fun hh => by simp at hh) (fun i fd hfd => by simp [emptyFindings] at hfd)
    · exact hInv

/-- Every reachable state satisfies the session invariant. -/
theorem reachable_sessionInv {s : State} (h : Reachable s) : SessionInv s := by
  induction h with
  | init =>
    refine ⟨by decide, by decide, fun hh => absurd hh (by decide), nofun, ?_⟩
    intro i fd hfd
    exact absurd hfd (by simp [initState, emptyFindings])
  | step e hR ih => exact sessionInv_apply e _ ih

/-- Iterating one event preserves reachability. -/
theorem reachable_iterate (e : Event) (n : Nat) {s : State} (h : Reachable s) :
    Reachable (Nat.iterate (applyEvent e) n s) := by
  induction n with
  | zero => exact h
  | succ n ih =>
    rw [Function.iterate_succ_apply']
    exact Reachable.step e ih

/-- Fields of a state after the step-change effect: the timer shows the
(new) active step's full duration and is stopped, the mobile menu is
closed, and everything else is untouched. -/
theorem stepChangeEffect_fields (s : State) :
    (stepChangeEffect s).timeLeft = (stepAt s.activeStep).duration ∧
    (stepChangeEffect s).isTimerRunning = false ∧
    (stepChangeEffect s).mobileMenuOpen = false ∧
    (stepChangeEffect s).activeStep = s.activeStep ∧
    (stepChangeEffect s).findings = s.findings ∧
    (stepChangeEffect s).contractName = s.contractName ∧
    (stepChangeEffect s).reviewComplete = s.reviewComplete := by
  unfold stepChangeEffect timerEffect
  split <;> exact ⟨rfl, rfl, rfl, rfl, rfl, rfl, rfl⟩

/-- Checklist-ordered listing of the checked items, written from the
spec's words ("in the item's checklist-defined order, not insertion
order") to compare against the source's `stepBlock`, which emits the
stored `checked` list as-is. -/
def checklistOrderedChecked (step : StepDefinition) (checked : List String) : List String :=
  step.checklist.filter (fun x => checked.contains x)

/-- A reachable state sitting on step 0 with the timer running at 59
seconds and the mobile menu open: Start was pressed, one tick elapsed,
the menu was opened. -/
def busyStepZero : State :=
  applyEvent Event.menuToggle (applyEvent Event.tick (applyEvent Event.timerToggle initState))

/-- C1 is FALSE on the code: after toggling step 1's second checklist item
and then its first, `checked` stores the items in toggle order and the
report block prints the Termination line before the Term line, while the
checklist-defined order of those two checked items is the reverse. -/
theorem C1_counterexample :
    (applyEvent (Event.toggleItem 0) (applyEvent (Event.toggleItem 1) initState)).findings 0 =
      some { checked := ["Termination: Can we get out? At what cost?",
                         "Term: Is the duration clear?"],
             notes := "" } ∧
    stepBlock 0 (stepAt 0)
        ((applyEvent (Event.toggleItem 0) (applyEvent (Event.toggleItem 1) initState)).findings 0) =
      "[1] CONTROL CLAUSES\nFlags Identified:\n - [x] Termination: Can we get out? At what cost?\n - [x] Term: Is the duration clear?\n\n-----------------------------------\n\n" ∧
    checklistOrderedChecked (stepAt 0)
        ["Termination: Can we get out? At what cost?", "Term: Is the duration clear?"] =
      ["Term: Is the duration clear?", "Termination: Can we get out? At what cost?"] ∧
    (["Termination: Can we get out? At what cost?", "Term: Is the duration clear?"] : List String) ≠
      ["Term: Is the duration clear?", "Termination: Can we get out? At what cost?"] := by
  refine ⟨?_, ?_, ?_, ?_⟩ <;> decide

/-- C1 (amended): for any step with a non-empty checked collection, the
report block lists one ` - [x]` line per checked item in the STORED order
of `checked` — the order in which the user toggled the items on, since a
toggle of an absent item appends it at the end — not necessarily the
checklist-authored order. -/
theorem C1_flag_lines_follow_insertion_order (index : Nat) (step : StepDefinition)
    (fd : FindingData) (h : fd.checked ≠ []) :
    stepBlock index step (some fd) =
      "[" ++ toString (index + 1) ++ "] " ++ toUpperString step.title ++ "\n"
        ++ ("Flags Identified:\n"
            ++ String.join (fd.checked.map (fun item => " - [x] " ++ item ++ "\n"))
            ++ (if fd.notes != "" then "Notes: " ++ fd.notes ++ "\n" else ""))
        ++ "\n-----------------------------------\n\n" ∧
    ∀ item s, ((s.findings s.activeStep).map FindingData.checked).getD [] = fd.checked →
      fd.checked.contains item = false →
      ((toggleChecklist item s).findings s.activeStep).map FindingData.checked =
        some (fd.checked ++ [item]) := by
  have hlen : 0 < fd.checked.length := List.length_pos.mpr h
  constructor
  · simp [stepBlock, hlen]
  · intro item s heq hc
    rw [toggleChecklist_findings_self, heq, hc]
    simp

/-- Witness for the amended C1 at a concrete input. -/
theorem C1_witness :
    stepBlock 0 (stepAt 0) (some ⟨["Liability: Is it capped? Are we exposed?"], ""⟩) =
      "[1] CONTROL CLAUSES\nFlags Identified:\n - [x] Liability: Is it capped? Are we exposed?\n\n-----------------------------------\n\n" := by
  rw [(C1_flag_lines_follow_insertion_order 0 (stepAt 0)
        ⟨["Liability: Is it capped? Are we exposed?"], ""⟩ (by decide)).1]
  decide

/-- C2 is FALSE on the code: the sidebar dot test does not trim the notes.
After typing a single blank as step 0's notes, the checked collection is
empty and the trimmed notes are empty, yet the dot is shown. -/
theorem C2_counterexample :
    (applyEvent (Event.setNotes " ") initState).findings 0 =
      some { checked := [], notes := " " } ∧
    trimString " " = "" ∧
    hasFindingsDot ((applyEvent (Event.setNotes " ") initState).findings 0) = true := by
  refine ⟨?_, ?_, ?_⟩ <;> decide

/-- C2 (amended): the sidebar shows the "has findings" dot for a step if
and only if that step has a FindingData record whose checked collection is
non-empty or whose notes string is non-empty WITHOUT trimming — so
whitespace-only notes do flag the step. -/
theorem C2_dot_iff_untrimmed (s : State) (i : Nat) :
    hasFindingsDot (s.findings i) = true ↔
      ∃ fd, s.findings i = some fd ∧ (fd.checked ≠ [] ∨ fd.notes ≠ "") := by
  cases hfd : s.findings i with
  | none => simp [hasFindingsDot]
  | some d => simp [hasFindingsDot, hfd]

/-- C3 is FALSE on the code: with the timer running at 59 seconds and the
mobile menu open on step 0, clicking step 0's own sidebar entry changes
nothing — React bails out of the same-value `setActiveStep(idx)` and the
step-change effect (keyed on `activeStep`) does not re-run, so the timer
is not reset to Stopped at full duration and the menu stays open. -/
theorem C3_counterexample :
    busyStepZero.activeStep = 0 ∧
    busyStepZero.isTimerRunning = true ∧
    busyStepZero.timeLeft = 59 ∧
    busyStepZero.mobileMenuOpen = true ∧
    applyEvent (Event.jump 0) busyStepZero = busyStepZero := by
  exact ⟨rfl, rfl, rfl, rfl, rfl⟩

/-- C3 (amended): selecting the already-active step (from the sidebar or
the mobile menu) is a complete no-op: the state is unchanged, so the
timer keeps running and the mobile menu stays as it was. -/
theorem C3_same_step_click_is_noop (s : State) (i : Nat) (h : i = s.activeStep) :
    applyEvent (Event.jump i) s = s := by
  simp only [applyEvent]
  split
  · rfl
  · unfold setActiveStep
    rw [if_pos h]

/-- Witness for the amended C3 at a concrete input. -/
theorem C3_witness : applyEvent (Event.jump 0) initState = initState :=
  C3_same_step_click_is_noop initState 0 rfl

/-- C4: navigating from the current step to a different step M by any
means — a sidebar or mobile-menu jump, and Next and Back, which perform
the same jump — yields `timeLeft = steps[M].duration`,
`isTimerRunning = false` and `mobileMenuOpen = false`, regardless of the
prior timer and menu state. -/
theorem C4_step_change_resets (s : State) (m : Nat) (hrc : s.reviewComplete = false)
    (hm : m < 6) (hne : m ≠ s.activeStep) :
    ((applyEvent (Event.jump m) s).timeLeft = (stepAt m).duration ∧
     (applyEvent (Event.jump m) s).isTimerRunning = false ∧
     (applyEvent (Event.jump m) s).mobileMenuOpen = false) ∧
    (m = s.activeStep + 1 → s.activeStep < 5 →
      applyEvent Event.next s = applyEvent (Event.jump m) s) ∧
    (m + 1 = s.activeStep →
      applyEvent Event.back s = applyEvent (Event.jump m) s) := by
  have hguard : (s.reviewComplete || decide (steps.length ≤ m)) = false := by
    rw [hrc, steps_length]
    simp only [Bool.false_or, decide_eq_false_iff_not]
    omega
  have hjump : applyEvent (Event.jump m) s = stepChangeEffect { s with activeStep := m } := by
    simp only [applyEvent]
    rw [if_neg (by simp [hguard])]
    unfold setActiveStep
    rw [if_neg hne]
  refine ⟨?_, ?_, ?_⟩
  · rw [hjump]
    obtain ⟨h1, h2, h3, _⟩ := stepChangeEffect_fields { s with activeStep := m }
    exact ⟨h1, h2, h3⟩
  · intro h1 h2
    subst h1
    rw [hjump]
    simp only [applyEvent]
    rw [if_neg (show ¬(s.reviewComplete = true) by simp [hrc])]
    unfold handleNext
    rw [if_pos (show s.activeStep < steps.length - 1 by rw [steps_length]; omega)]
    unfold setActiveStep
    rw [if_neg (show ¬(s.activeStep + 1 = s.activeStep) by omega)]
  · intro h1
    rw [hjump]
    simp only [applyEvent]
    rw [if_neg (show ¬(s.reviewComplete = true) by simp [hrc])]
    unfold handleBack
    rw [if_pos (show 0 < s.activeStep by omega)]
    unfold setActiveStep
    rw [if_neg (show ¬(s.activeStep - 1 = s.activeStep) by omega)]
    have hm1 : s.activeStep - 1 = m := by omega
    rw [hm1]

/-- Witness for C4 at a concrete input. -/
theorem C4_witness :
    (applyEvent (Event.jump 2) initState).timeLeft = (stepAt 2).duration ∧
    (applyEvent (Event.jump 2) initState).isTimerRunning = false ∧
    (applyEvent (Event.jump 2) initState).mobileMenuOpen = false :=
  (C4_step_change_resets initState 2 rfl (by decide) (by decide)).1

/-- C5: from any reachable summary-view state, confirming Start New Review
fully resets the session: step 0, empty findings map, empty contract name,
back to the step view, timer stopped at step 0's full 60-second
duration. -/
theorem C5_new_review_full_reset (s : State) (hR : Reachable s)
    (hc : s.reviewComplete = true) :
    (applyEvent (Event.newReview true) s).activeStep = 0 ∧
    (applyEvent (Event.newReview true) s).findings = emptyFindings ∧
    (applyEvent (Event.newReview true) s).contractName = "" ∧
    (applyEvent (Event.newReview true) s).reviewComplete = false ∧
    (applyEvent (Event.newReview true) s).isTimerRunning = false ∧
    (applyEvent (Event.newReview true) s).timeLeft = (stepAt 0).duration ∧
    (stepAt 0).duration = 60 := by
  have h5 : s.activeStep = 5 := (reachable_sessionInv hR).2.2.2.1 hc
  simp only [applyEvent]
  rw [if_pos (by simp [hc])]
  unfold startNewReview
  rw [if_neg (by omega)]
  obtain ⟨h1, h2, h3, h4, h5f, h6, h7⟩ := stepChangeEffect_fields
    { s with reviewComplete := false, activeStep := 0,
             findings := emptyFindings, contractName := "",
             isTimerRunning := false }
  exact ⟨h4, h5f, h6, h7, h2, h1, rfl⟩

/-- Witness for C5: finish the review from step 5, then confirm Start New
Review. -/
theorem C5_witness :
    (applyEvent (Event.newReview true)
        (applyEvent Event.next (applyEvent (Event.jump 5) initState))).activeStep = 0 ∧
    (applyEvent (Event.newReview true)
        (applyEvent Event.next (applyEvent (Event.jump 5) initState))).findings = emptyFindings ∧
    (applyEvent (Event.newReview true)
        (applyEvent Event.next (applyEvent (Event.jump 5) initState))).contractName = "" ∧
    (applyEvent (Event.newReview true)
        (applyEvent Event.next (applyEvent (Event.jump 5) initState))).reviewComplete = false ∧
    (applyEvent (Event.newReview true)
        (applyEvent Event.next (applyEvent (Event.jump 5) initState))).isTimerRunning = false ∧
    (applyEvent (Event.newReview true)
        (applyEvent Event.next (applyEvent (Event.jump 5) initState))).timeLeft = (stepAt 0).duration ∧
    (stepAt 0).duration = 60 :=
  C5_new_review_full_reset _
    (Reachable.step Event.next (Reachable.step (Event.jump 5) Reachable.init)) rfl

/-- C6: Next on the last step (index 5) enters the summary view and keeps
the step index; Next on an earlier step advances by exactly one and never
sets the completion flag. -/
theorem C6_next_transition (s : State) (hrc : s.reviewComplete = false) :
    (s.activeStep = 5 →
      (applyEvent Event.next s).reviewComplete = true ∧
      (applyEvent Event.next s).activeStep = 5) ∧
    (s.activeStep < 5 →
      (applyEvent Event.next s).activeStep = s.activeStep + 1 ∧
      (applyEvent Event.next s).reviewComplete = false) := by
  constructor
  · intro h5
    simp only [applyEvent]
    rw [if_neg (by simp [hrc])]
    unfold handleNext
    rw [if_neg (by rw [steps_length]; omega)]
    exact ⟨rfl, h5⟩
  · intro hlt
    simp only [applyEvent]
    rw [if_neg (by simp [hrc])]
    unfold handleNext
    rw [if_pos (by rw [steps_length]; omega)]
    unfold setActiveStep
    rw [if_neg (by omega)]
    obtain ⟨_, _, _, h4, _, _, h7⟩ := stepChangeEffect_fields
      { s with activeStep := s.activeStep + 1 }
    exact ⟨h4, h7.trans hrc⟩

/-- Witness for C6 at a concrete input. -/
theorem C6_witness :
    ((initState.activeStep = 5 →
      (applyEvent Event.next initState).reviewComplete = true ∧
      (applyEvent Event.next initState).activeStep = 5) ∧
    (initState.activeStep < 5 →
      (applyEvent Event.next initState).activeStep = initState.activeStep + 1 ∧
      (applyEvent Event.next initState).reviewComplete = false)) :=
  C6_next_transition initState rfl

/-- C7: in every reachable state the countdown is never negative; once it
reaches 0 the timer is stopped, and a further tick leaves the state
completely unchanged — no decrement past zero and no wraparound. -/
theorem C7_timer_never_negative (s : State) (hR : Reachable s) :
    0 ≤ s.timeLeft ∧
    (s.timeLeft = 0 → s.isTimerRunning = false ∧ applyEvent Event.tick s = s) := by
  obtain ⟨h6, h0, hz, hrc, hwf⟩ := reachable_sessionInv hR
  refine ⟨h0, fun hzero => ⟨hz hzero, ?_⟩⟩
  simp only [applyEvent]
  unfold tickTimer
  rw [if_neg (by simp [hzero])]

/-- Witness for C7: start the timer on step 0 and let 60 ticks elapse,
driving `timeLeft` to exactly 0. -/
theorem C7_witness :
    0 ≤ (Nat.iterate (applyEvent Event.tick) 60 (applyEvent Event.timerToggle initState)).timeLeft ∧
    ((Nat.iterate (applyEvent Event.tick) 60 (applyEvent Event.timerToggle initState)).timeLeft = 0 →
      (Nat.iterate (applyEvent Event.tick) 60 (applyEvent Event.timerToggle initState)).isTimerRunning = false ∧
      applyEvent Event.tick
          (Nat.iterate (applyEvent Event.tick) 60 (applyEvent Event.timerToggle initState)) =
        Nat.iterate (applyEvent Event.tick) 60 (applyEvent Event.timerToggle initState)) :=
  C7_timer_never_negative _
    (reachable_iterate Event.tick 60 (Reachable.step Event.timerToggle Reachable.init))

/-- Splitting a string at newline characters, written structurally so that
it evaluates inside proofs. -/
def splitLinesAux : List Char → List Char → List String
  | [], acc => [String.mk acc.reverse]
  | c :: cs, acc =>
      if c = '\n' then String.mk acc.reverse :: splitLinesAux cs []
      else splitLinesAux cs (c :: acc)

/-- The lines of a string. -/
def splitLines (t : String) : List String := splitLinesAux t.data []

/-- Whether `line` starts with the prefix `p`, written structurally so
that it evaluates inside proofs. -/
def lineStarts (p line : String) : Bool := p.data.isPrefixOf line.data

/-- C8: a step with an absent FindingData record, or with an empty checked
collection and whitespace-only notes, yields a report block that is
exactly the title line, the line "Status: No specific issues flagged."
and the separator, with no "Flags Identified:" line and no "Notes:"
line. -/
theorem C8_no_issue_block (i : Nat) (hi : i < 6) (fd : Option FindingData)
    (h : fd = none ∨ ∃ d, fd = some d ∧ d.checked = [] ∧ trimString d.notes = "") :
    stepBlock i (stepAt i) fd =
      "[" ++ toString (i + 1) ++ "] " ++ toUpperString (stepAt i).title ++ "\n"
        ++ "Status: No specific issues flagged.\n"
        ++ "\n-----------------------------------\n\n" ∧
    (splitLines (stepBlock i (stepAt i) fd)).all
      (fun line => !(lineStarts "Flags Identified:" line)
        && !(lineStarts "Notes:" line)) = true := by
  have hblock : stepBlock i (stepAt i) fd =
      "[" ++ toString (i + 1) ++ "] " ++ toUpperString (stepAt i).title ++ "\n"
        ++ "Status: No specific issues flagged.\n"
        ++ "\n-----------------------------------\n\n" := by
    rcases h with h | ⟨d, hd, hc, hn⟩
    · subst h
      simp [stepBlock]
    · subst hd
      simp [stepBlock, hc, hn]
  refine ⟨hblock, ?_⟩
  rw [hblock]
  interval_cases i <;> decide

/-- Witness for C8 at a concrete input: step 3 with no findings record. -/
theorem C8_witness :
    stepBlock 3 (stepAt 3) none =
      "[" ++ toString (3 + 1) ++ "] " ++ toUpperString (stepAt 3).title ++ "\n"
        ++ "Status: No specific issues flagged.\n"
        ++ "\n-----------------------------------\n\n" ∧
    (splitLines (stepBlock 3 (stepAt 3) none)).all
      (fun line => !(lineStarts "Flags Identified:" line)
        && !(lineStarts "Notes:" line)) = true :=
  C8_no_issue_block 3 (by decide) none (Or.inl rfl)

/-- C9: toggling any checklist item of the active step, or replacing the
active step's notes, is a pure per-key update of the findings map — any
other step keeps its FindingData untouched. -/
theorem C9_other_steps_untouched (s : State) (b : Nat) (hb : b ≠ s.activeStep)
    (item text : String) :
    (toggleChecklist item s).findings b = s.findings b ∧
    (updateFinding text s).findings b = s.findings b :=
  ⟨toggleChecklist_findings_other item s b hb,
   updateFinding_findings_other text s b hb⟩

/-- Witness for C9 at a concrete input. -/
theorem C9_witness :
    (toggleChecklist "Term: Is the duration clear?" initState).findings 3 =
      initState.findings 3 ∧
    (updateFinding "note" initState).findings 3 = initState.findings 3 :=
  C9_other_steps_untouched initState 3 (by decide)
    "Term: Is the duration clear?" "note"

/-- C10: in every reachable state, every stored checked collection is
duplicate-free (each label present at most once) and contains only labels
drawn from that step's authored checklist. -/
theorem C10_checked_wellformed (s : State) (hR : Reachable s) (i : Nat)
    (fd : FindingData) (h : s.findings i = some fd) :
    fd.checked.Nodup ∧ ∀ x ∈ fd.checked, x ∈ (stepAt i).checklist :=
  (reachable_sessionInv hR).2.2.2.2 i fd h

/-- Witness for C10: after toggling step 0's first checklist item from the
initial state. -/
theorem C10_witness :
    (FindingData.mk ["Term: Is the duration clear?"] "").checked.Nodup ∧
    ∀ x ∈ (FindingData.mk ["Term: Is the duration clear?"] "").checked,
      x ∈ (stepAt 0).checklist :=
  C10_checked_wellformed _ (Reachable.step (Event.toggleItem 0) Reachable.init) 0 _ rfl

end ContractReview
